import Mathlib

/-!
# Verification of the OCPP 1.6 Smart Charging core

A shallow embedding of the smart-charging core of the EV charging station
simulator: the charging-profile data model and codec
(`charging_profile_manager.py`), the profile store and schedule resolver
(`ChargingProfileManager`), the pure charging policy engine
(`charging_policy.py`), and the station-side handlers and metering tick
(`station.py`).

Modelling conventions:
* Python timestamps (timezone-aware UTC `datetime`) are modelled as `Int`
  seconds; `isoformat`/ISO-8601 parsing becomes the identity on that model.
  Sub-second precision is dropped (no claim depends on it).
* Python `float` limits, prices and energies are modelled as `ℚ`.
* The per-connector profile dictionary is modelled as a key list plus a
  total function; reads are guarded by key membership exactly as the
  Python code guards dictionary access.
* Randomness (`random.randint`) is modelled by universally quantified
  parameters; `datetime.now` by an explicit `now` argument.
-/

/-- `ChargingProfilePurpose` enum from `charging_profile_manager.py`. -/
inductive ChargingProfilePurpose
  | chargePointMaxProfile
  | txDefaultProfile
  | txProfile
deriving DecidableEq

/-- `ChargingProfileKind` enum. -/
inductive ChargingProfileKind
  | absolute
  | recurring
  | relative
deriving DecidableEq

/-- `RecurrencyKind` enum. -/
inductive RecurrencyKind
  | daily
  | weekly
deriving DecidableEq

/-- `ChargingRateUnit` enum. -/
inductive ChargingRateUnit
  | watts
  | amps
deriving DecidableEq

/-- `ChargingSchedulePeriod` dataclass: one period of a schedule. -/
structure ChargingSchedulePeriod where
  start_period : Int
  limit : ℚ
  number_phases : Option Int
deriving DecidableEq

/-- `ChargingSchedule` dataclass. `start_schedule` is a timestamp. -/
structure ChargingSchedule where
  charging_rate_unit : ChargingRateUnit
  charging_schedule_period : List ChargingSchedulePeriod
  duration : Option Int
  start_schedule : Option Int
  min_charging_rate : Option ℚ
deriving DecidableEq

/-- `ChargingProfile` dataclass. -/
structure ChargingProfile where
  charging_profile_id : Int
  stack_level : Int
  charging_profile_purpose : ChargingProfilePurpose
  charging_profile_kind : ChargingProfileKind
  charging_schedule : ChargingSchedule
  transaction_id : Option Int
  recurrency_kind : Option RecurrencyKind
  valid_from : Option Int
  valid_to : Option Int
deriving DecidableEq

/-! ## Time helpers

`datetime.replace(hour=…, minute=…, second=…, microsecond=…)` keeps the
date of the receiver and substitutes the time-of-day of another value; on
the seconds model this is `dayStart (receiver) + timeOfDay (other)`.
`datetime.weekday()` differences modulo 7 are invariant under the constant
epoch-weekday offset, so `weekday` drops the offset. -/

/-- Time of day in seconds, in `[0, 86400)`. -/
def timeOfDay (t : Int) : Int := t.emod 86400

/-- Midnight of the day containing `t`. -/
def dayStart (t : Int) : Int := t - t.emod 86400

/-- Day-of-week index (modulo an irrelevant constant offset). -/
def weekday (t : Int) : Int := (t.ediv 86400).emod 7

/-! ## Profile store

Python: `self.profiles: Dict[int, List[ChargingProfile]]`. -/

/-- The per-connector profile dictionary of `ChargingProfileManager`. -/
structure Store where
  keys : List Int
  map : Int → List ChargingProfile

/-- Reading `self.profiles[c]` where every Python read is guarded by
`c in self.profiles`; an absent key reads as the empty list. -/
def Store.read (s : Store) (c : Int) : List ChargingProfile :=
  if c ∈ s.keys then s.map c else []

/-- `self.profiles[c] = l` (creates the key when absent). -/
def Store.set (s : Store) (c : Int) (l : List ChargingProfile) : Store :=
  { keys := if c ∈ s.keys then s.keys else s.keys ++ [c],
    map := fun k => if k = c then l else s.map k }

/-- A fresh `ChargingProfileManager` has no profiles. -/
def emptyStore : Store := { keys := [], map := fun _ => [] }

/-! ## Validation (`validate_charging_profile`) -/

/-- The sortedness loop: fails iff some adjacent pair of periods has a
strictly decreasing `startPeriod`. -/
def periods_sorted_ok : List ChargingSchedulePeriod → Bool
  | [] => true
  | [_] => true
  | a :: b :: rest =>
    decide (a.start_period ≤ b.start_period) && periods_sorted_ok (b :: rest)

/-- `validate_charging_profile`, check for check in source order. -/
def validate_charging_profile (p : ChargingProfile) : Bool × String :=
  if p.charging_profile_id ≤ 0 then
    (false, "chargingProfileId must be positive")
  else if p.stack_level < 0 then
    (false, "stackLevel must be non-negative")
  else if p.charging_schedule.charging_schedule_period.isEmpty then
    (false, "chargingSchedulePeriod array cannot be empty")
  else if ! periods_sorted_ok p.charging_schedule.charging_schedule_period then
    (false, "chargingSchedulePeriod must be sorted by startPeriod ascending")
  else if p.charging_schedule.charging_schedule_period.any
      (fun per => decide (per.limit ≤ 0)) then
    (false, "non-positive limit")
  else if p.charging_profile_purpose = ChargingProfilePurpose.txProfile ∧
      p.transaction_id = none then
    (false, "transactionId is required for TxProfile purpose")
  else if p.charging_profile_kind = ChargingProfileKind.recurring ∧
      p.recurrency_kind = none then
    (false, "recurrencyKind is required for Recurring profile kind")
  else if p.charging_profile_kind = ChargingProfileKind.absolute ∧
      p.charging_schedule.start_schedule = none then
    (false, "startSchedule is required for Absolute profile kind")
  else (true, "")

/-! ## `ChargingProfileManager.add_profile` -/

/-- `add_profile`: validate, init the connector entry, reject on a
`(purpose, stackLevel)` conflict, else drop same-id profiles and append.
Returns `(success, message, new store)`. -/
def add_profile (store : Store) (connector_id : Int) (p : ChargingProfile) :
    Bool × String × Store :=
  let v := validate_charging_profile p
  if ! v.1 then (false, "Validation failed: " ++ v.2, store)
  else
    let store1 := if connector_id ∈ store.keys then store else store.set connector_id []
    if (store1.read connector_id).any (fun e =>
        decide (e.charging_profile_purpose = p.charging_profile_purpose ∧
                e.stack_level = p.stack_level)) then
      (false, "StackLevel conflict", store1)
    else
      let remaining := (store1.read connector_id).filter
        (fun q => decide (q.charging_profile_id ≠ p.charging_profile_id))
      (true, "Profile accepted", store1.set connector_id (remaining ++ [p]))

/-! ## `ChargingProfileManager.clear_profile` -/

/-- `matches_criteria` inside `clear_profile`: AND over provided filters. -/
def matches_criteria (profile_id : Option Int) (purpose : Option ChargingProfilePurpose)
    (stack_level : Option Int) (p : ChargingProfile) : Bool :=
  (match profile_id with
   | some pid => decide (p.charging_profile_id = pid)
   | none => true) &&
  (match purpose with
   | some pu => decide (p.charging_profile_purpose = pu)
   | none => true) &&
  (match stack_level with
   | some sl => decide (p.stack_level = sl)
   | none => true)

/-- `clear_profile`: keep profiles that do not match; return the removal
count and the new store. -/
def clear_profile (store : Store) (connector_id : Int) (profile_id : Option Int)
    (purpose : Option ChargingProfilePurpose) (stack_level : Option Int) :
    Nat × Store :=
  if connector_id ∈ store.keys then
    let old := store.read connector_id
    let kept := old.filter (fun p => ! matches_criteria profile_id purpose stack_level p)
    (old.length - kept.length, store.set connector_id kept)
  else (0, store)

/-! ## Schedule resolution -/

/-- `_get_effective_schedule_start`. -/
def get_effective_schedule_start (p : ChargingProfile) (reference_time : Int)
    (transaction_start : Option Int) : Option Int :=
  match p.charging_profile_kind with
  | ChargingProfileKind.absolute => p.charging_schedule.start_schedule
  | ChargingProfileKind.recurring =>
    match p.charging_schedule.start_schedule with
    | none => none
    | some ss =>
      match p.recurrency_kind with
      | some RecurrencyKind.daily =>
        let today_start := dayStart reference_time + timeOfDay ss
        some (if reference_time < today_start then today_start - 86400 else today_start)
      | some RecurrencyKind.weekly =>
        let days_diff := (weekday reference_time - weekday ss).emod 7
        let this_week_start :=
          dayStart reference_time + timeOfDay ss - days_diff * 86400
        some (if reference_time < this_week_start then this_week_start - 7 * 86400
              else this_week_start)
      | none => none
  | ChargingProfileKind.relative => transaction_start

/-- The period-selection loop of `_get_limit_at_time`: keep the last
period whose `startPeriod` is at most `elapsed`, stopping at the first
period beyond it. -/
def find_applicable_period (periods : List ChargingSchedulePeriod) (elapsed : Int) :
    Option ChargingSchedulePeriod :=
  (periods.takeWhile (fun per => decide (per.start_period ≤ elapsed))).getLast?

/-- `_get_limit_at_time`. -/
def get_limit_at_time (p : ChargingProfile) (target_time : Int)
    (transaction_start : Option Int) : Option ℚ :=
  match get_effective_schedule_start p target_time transaction_start with
  | none => none
  | some schedule_start =>
    let elapsed := target_time - schedule_start
    if elapsed < 0 then none
    else if (match p.charging_schedule.duration with
             | some d => decide (d < elapsed)
             | none => false) then none
    else
      match find_applicable_period p.charging_schedule.charging_schedule_period elapsed with
      | none => none
      | some per => some per.limit

/-- `_is_profile_valid_at_time`: `validFrom ≤ t ≤ validTo`, absent bounds open. -/
def is_profile_valid_at_time (p : ChargingProfile) (check_time : Int) : Bool :=
  (match p.valid_from with
   | some vf => decide (vf ≤ check_time)
   | none => true) &&
  (match p.valid_to with
   | some vt => decide (check_time ≤ vt)
   | none => true)

/-! ## `ChargingProfileManager.get_current_limit` -/

/-- Candidate collection shared by `get_current_limit` and
`get_composite_schedule`: connector 0 profiles plus (for a non-zero
connector) the connector's own. -/
def collect_profiles (store : Store) (connector_id : Int) : List ChargingProfile :=
  (if (0:Int) ∈ store.keys then store.map 0 else []) ++
  (if connector_id ≠ 0 ∧ connector_id ∈ store.keys then store.map connector_id else [])

/-- The `TxProfile` filter of `get_current_limit`: a Tx-purpose profile
survives only when a transaction id is supplied and equals the profile's. -/
def tx_profile_applicable (p : ChargingProfile) (transaction_id : Option Int) : Bool :=
  if p.charging_profile_purpose = ChargingProfilePurpose.txProfile then
    match transaction_id with
    | none => false
    | some _ => decide (p.transaction_id = transaction_id)
  else true

/-- The running-minimum loop: `if min_limit is None or limit < min_limit`. -/
def min_limit_fold (ps : List ChargingProfile) (now : Int) : Option ℚ :=
  ps.foldl (fun acc p =>
    match get_limit_at_time p now none with
    | none => acc
    | some l =>
      match acc with
      | none => some l
      | some m => if l < m then some l else some m) none

/-- `get_current_limit` with the wall clock passed explicitly. -/
def get_current_limit (store : Store) (connector_id : Int) (now : Int)
    (transaction_id : Option Int) : Option ℚ :=
  let all_profiles := collect_profiles store connector_id
  if all_profiles.isEmpty then none
  else
    let valid_profiles := all_profiles.filter (fun p =>
      is_profile_valid_at_time p now && tx_profile_applicable p transaction_id)
    if valid_profiles.isEmpty then none
    else min_limit_fold valid_profiles now

/-! ## `ChargingProfileManager.get_composite_schedule` -/

/-- `purpose_priority` dictionary used by the composite sort. -/
def purpose_priority : ChargingProfilePurpose → Int
  | ChargingProfilePurpose.chargePointMaxProfile => 0
  | ChargingProfilePurpose.txProfile => 1
  | ChargingProfilePurpose.txDefaultProfile => 2

/-- Sort order of the composite computation: `(purpose priority, stackLevel)`. -/
def composite_profile_le (a b : ChargingProfile) : Bool :=
  decide (purpose_priority a.charging_profile_purpose <
          purpose_priority b.charging_profile_purpose) ||
  (decide (purpose_priority a.charging_profile_purpose =
           purpose_priority b.charging_profile_purpose) &&
   decide (a.stack_level ≤ b.stack_level))

/-- The composite filter: drop Relative profiles and profiles not
time-valid at the query start time. -/
def composite_valid_profiles (store : Store) (connector_id : Int) (start_time : Int) :
    List ChargingProfile :=
  (collect_profiles store connector_id).filter (fun p =>
    decide (p.charging_profile_kind ≠ ChargingProfileKind.relative) &&
    is_profile_valid_at_time p start_time)

/-- The composite sort (`valid_profiles.sort(key=…)`): a stable sort by
`(purpose priority, stackLevel)`. -/
def composite_sorted_profiles (store : Store) (connector_id : Int) (start_time : Int) :
    List ChargingProfile :=
  List.insertionSort (fun a b => composite_profile_le a b = true)
    (composite_valid_profiles store connector_id start_time)

/-- The per-second minimum limit (`time_limits[second]`). -/
def composite_second_limit (store : Store) (connector_id : Int) (start_time : Int)
    (s : Nat) : Option ℚ :=
  min_limit_fold (composite_sorted_profiles store connector_id start_time)
    (start_time + (s : Int))

/-- The compression loop of `get_composite_schedule`: a new period starts
when the limit changes or the covered seconds are not contiguous. -/
def compress_periods (current_start : Nat) (current_limit : ℚ) (prev : Nat) :
    List (Nat × ℚ) → List ChargingSchedulePeriod
  | [] => [{ start_period := (current_start : Int), limit := current_limit,
             number_phases := none }]
  | (s, l) :: rest =>
    if l ≠ current_limit ∨ s ≠ prev + 1 then
      { start_period := (current_start : Int), limit := current_limit,
        number_phases := none } :: compress_periods s l s rest
    else
      compress_periods current_start current_limit s rest

/-- `get_composite_schedule` with explicit start time. -/
def get_composite_schedule (store : Store) (connector_id : Int) (duration : Nat)
    (charging_rate_unit : ChargingRateUnit) (start_time : Int) :
    Option ChargingSchedule :=
  if (collect_profiles store connector_id).isEmpty then none
  else if (composite_valid_profiles store connector_id start_time).isEmpty then none
  else
    let covered := (List.range duration).filterMap (fun s =>
      (composite_second_limit store connector_id start_time s).map (fun l => (s, l)))
    match covered with
    | [] => none
    | (s0, l0) :: rest =>
      some { charging_rate_unit := charging_rate_unit,
             charging_schedule_period := compress_periods s0 l0 s0 rest,
             duration := some (duration : Int),
             start_schedule := some start_time,
             min_charging_rate := none }

/-! ## Charging policy engine (`charging_policy.py`) -/

/-- Policy actions of `evaluate_charging_policy`. -/
inductive PolicyAction
  | charge
  | wait
  | pause
deriving DecidableEq

/-- The returned decision dictionary. -/
structure PolicyDecision where
  action : PolicyAction
  reason : String
deriving DecidableEq

/-- `station_state` dictionary. -/
structure StationState where
  energy_dispensed : ℚ
  charging : Bool
  session_active : Bool

/-- `profile` (policy configuration) dictionary. -/
structure PolicyConfig where
  charge_if_price_below : ℚ
  max_energy_kwh : ℚ
  allow_peak_hours : Bool
  peak_hours : List Int

/-- `env` dictionary. -/
structure PolicyEnv where
  current_price : ℚ
  hour : Int

/-- `evaluate_charging_policy`: four rules in order, first match wins. -/
def evaluate_charging_policy (station_state : StationState) (profile : PolicyConfig)
    (env : PolicyEnv) : PolicyDecision :=
  if station_state.energy_dispensed ≥ profile.max_energy_kwh then
    { action := PolicyAction.pause, reason := "Energy cap reached" }
  else if env.current_price > profile.charge_if_price_below then
    { action := PolicyAction.wait, reason := "Price too high" }
  else if env.hour ∈ profile.peak_hours ∧ ¬ profile.allow_peak_hours then
    { action := PolicyAction.wait, reason := "Peak hour block" }
  else
    { action := PolicyAction.charge, reason := "Conditions OK" }

/-- Actions of the meter-loop (Wh-precise) policy variant. -/
inductive MeterAction
  | cont
  | stop
deriving DecidableEq

/-- Decision of `evaluate_meter_value_decision`. -/
structure MeterDecision where
  action : MeterAction
  reason : String
deriving DecidableEq

/-- `evaluate_meter_value_decision`: Wh cap check, then the main policy
mapped `pause/wait → stop`, `charge → continue`. -/
def evaluate_meter_value_decision (station_state : StationState)
    (profile : PolicyConfig) (env : PolicyEnv) (current_energy_wh : ℚ)
    (max_energy_wh : ℚ) : MeterDecision :=
  if current_energy_wh ≥ max_energy_wh then
    { action := MeterAction.stop, reason := "Energy cap reached" }
  else
    let main_decision := evaluate_charging_policy station_state profile env
    match main_decision.action with
    | PolicyAction.pause => { action := MeterAction.stop, reason := main_decision.reason }
    | PolicyAction.wait => { action := MeterAction.stop, reason := main_decision.reason }
    | PolicyAction.charge => { action := MeterAction.cont, reason := main_decision.reason }

/-! ## Station handlers and the metering tick (`station.py`) -/

/-- `ClearChargingProfile.conf` status values used by the handler. -/
inductive ClearChargingProfileStatus
  | accepted
  | unknown
deriving DecidableEq

/-- `ChargingProfilePurpose(purpose_str)` conversion; invalid strings
leave the filter unset (the handler catches the `ValueError`). -/
def purpose_from_string (s : String) : Option ChargingProfilePurpose :=
  if s = "ChargePointMaxProfile" then some ChargingProfilePurpose.chargePointMaxProfile
  else if s = "TxDefaultProfile" then some ChargingProfilePurpose.txDefaultProfile
  else if s = "TxProfile" then some ChargingProfilePurpose.txProfile
  else none

/-- The `connector_id == 0` loop of `on_clear_charging_profile`: clear
every connector in `ks` left to right, accumulating the removal count. -/
def clear_all_connectors (store : Store) (ks : List Int) (profile_id : Option Int)
    (purpose : Option ChargingProfilePurpose) (stack_level : Option Int) :
    Nat × Store :=
  match ks with
  | [] => (0, store)
  | k :: rest =>
    let r := clear_profile store k profile_id purpose stack_level
    let rest_r := clear_all_connectors r.2 rest profile_id purpose stack_level
    (r.1 + rest_r.1, rest_r.2)

/-- `on_clear_charging_profile`: an absent `connector_id` defaults to 0;
`connector_id = 0` clears every connector in the store; `Accepted` iff
anything was removed. -/
def on_clear_charging_profile (store : Store) (profile_id : Option Int)
    (connector_id_arg : Option Int) (purpose_str : Option String)
    (stack_level : Option Int) : ClearChargingProfileStatus × Store :=
  let connector_id := connector_id_arg.getD 0
  let purpose := match purpose_str with
    | none => none
    | some s => purpose_from_string s
  let r := if connector_id = 0 then
      clear_all_connectors store store.keys profile_id purpose stack_level
    else
      clear_profile store connector_id profile_id purpose stack_level
  (if r.1 > 0 then ClearChargingProfileStatus.accepted
   else ClearChargingProfileStatus.unknown, r.2)

/-- Result of one iteration of the MeterValues loop body. -/
structure TickResult where
  energy_step : ℚ
  policy_decision : Option MeterDecision
  stopped : Bool
  self_energy : ℚ

/-- `is_peak_hour` (`station.py`): `peak_hours` is a `(start, end)` pair
and the check is the half-open range test `start ≤ hour < end`. -/
def is_peak_hour (hour : Int) (peak_hours : Int × Int) : Bool :=
  decide (peak_hours.1 ≤ hour ∧ hour < peak_hours.2)

/-- One metering tick of `auto_transaction_loop` (`station.py` lines
656-733). `auto_transaction_loop` is a function nested in the
module-level `simulate_station`, whose charge point object is the local
`cp`; no enclosing scope binds `self`, so the tick's first statement
`self.profile_manager.get_current_limit(...)` (line 658) raises
`NameError` before anything else in the body runs, and the session task
crashes (no handler inside the loop). The body after that statement is
unreachable; it is embedded in the `Except.ok` branch below for
reference: an OCPP limit would cap the step at `limit × interval / 3600`
Wh; otherwise the Wh-precise policy variant would be consulted — the
policy dictionary receives `profile.peak_hours`, the `(start, end)`
pair, so its membership test would see exactly the two endpoint hours —
and the legacy halving would apply when `is_peak_hour` holds and peak
charging is allowed; finally accumulate and clamp. -/
def meter_tick (_store : Store) (_connector_id : Int) (_transaction_id : Int)
    (_now : Int) (base_step : Int) (sample_interval_seconds : Int)
    (charge_if_price_below max_energy_kwh : ℚ) (allow_peak : Bool)
    (peak_hours : Int × Int) (current_price : ℚ) (hour : Int)
    (self_energy : ℚ) (max_energy_wh : ℚ) : Except String TickResult :=
  match (Except.error "NameError: name self is not defined" :
      Except String (Option ℚ)) with
  | Except.error e => Except.error e
  | Except.ok profile_limit_w =>
    match profile_limit_w with
    | some limit_w =>
      let max_step_wh := limit_w * ((sample_interval_seconds : ℚ) / 3600)
      let energy_step := min (base_step : ℚ) max_step_wh
      let e := self_energy + energy_step
      Except.ok
        { energy_step := energy_step, policy_decision := none, stopped := false,
          self_energy := if e ≥ max_energy_wh then max_energy_wh else e }
    | none =>
      let meter_decision := evaluate_meter_value_decision
        { energy_dispensed := self_energy / 1000, charging := true, session_active := true }
        { charge_if_price_below := charge_if_price_below,
          max_energy_kwh := max_energy_kwh,
          allow_peak_hours := allow_peak,
          peak_hours := [peak_hours.1, peak_hours.2] }
        { current_price := current_price, hour := hour } self_energy max_energy_wh
      if meter_decision.action = MeterAction.stop then
        Except.ok
          { energy_step := 0, policy_decision := some meter_decision,
            stopped := true, self_energy := self_energy }
      else
        let energy_step : ℚ :=
          if is_peak_hour hour peak_hours && allow_peak then
            ((max (base_step.tdiv 2) 10 : Int) : ℚ)
          else (base_step : ℚ)
        let e := self_energy + energy_step
        Except.ok
          { energy_step := energy_step, policy_decision := some meter_decision,
            stopped := false,
            self_energy := if e ≥ max_energy_wh then max_energy_wh else e }

/-! ## Codec (`to_dict` / `parse_charging_profile`)

OCPP message dictionaries become records of optional fields; an absent
key is `none`. Enum `.value` strings round-trip through the string maps
below; timestamps round-trip through the identity on the seconds model. -/

/-- `ChargingRateUnit.value`. -/
def rate_unit_to_string : ChargingRateUnit → String
  | ChargingRateUnit.watts => "W"
  | ChargingRateUnit.amps => "A"

/-- `ChargingRateUnit(str)`. -/
def rate_unit_from_string (s : String) : Option ChargingRateUnit :=
  if s = "W" then some ChargingRateUnit.watts
  else if s = "A" then some ChargingRateUnit.amps
  else none

/-- `ChargingProfilePurpose.value`. -/
def purpose_to_string : ChargingProfilePurpose → String
  | ChargingProfilePurpose.chargePointMaxProfile => "ChargePointMaxProfile"
  | ChargingProfilePurpose.txDefaultProfile => "TxDefaultProfile"
  | ChargingProfilePurpose.txProfile => "TxProfile"

/-- `ChargingProfileKind.value`. -/
def kind_to_string : ChargingProfileKind → String
  | ChargingProfileKind.absolute => "Absolute"
  | ChargingProfileKind.recurring => "Recurring"
  | ChargingProfileKind.relative => "Relative"

/-- `ChargingProfileKind(str)`. -/
def kind_from_string (s : String) : Option ChargingProfileKind :=
  if s = "Absolute" then some ChargingProfileKind.absolute
  else if s = "Recurring" then some ChargingProfileKind.recurring
  else if s = "Relative" then some ChargingProfileKind.relative
  else none

/-- `RecurrencyKind.value`. -/
def recurrency_to_string : RecurrencyKind → String
  | RecurrencyKind.daily => "Daily"
  | RecurrencyKind.weekly => "Weekly"

/-- `RecurrencyKind(str)`. -/
def recurrency_from_string (s : String) : Option RecurrencyKind :=
  if s = "Daily" then some RecurrencyKind.daily
  else if s = "Weekly" then some RecurrencyKind.weekly
  else none

/-- A period dictionary. -/
structure PeriodDict where
  startPeriod : Option Int
  limit : Option ℚ
  numberPhases : Option Int
deriving DecidableEq

/-- A schedule dictionary. -/
structure ScheduleDict where
  chargingRateUnit : Option String
  chargingSchedulePeriod : Option (List PeriodDict)
  duration : Option Int
  startSchedule : Option Int
  minChargingRate : Option ℚ
deriving DecidableEq

/-- A profile dictionary. -/
structure ProfileDict where
  chargingProfileId : Option Int
  stackLevel : Option Int
  chargingProfilePurpose : Option String
  chargingProfileKind : Option String
  chargingSchedule : Option ScheduleDict
  transactionId : Option Int
  recurrencyKind : Option String
  validFrom : Option Int
  validTo : Option Int
deriving DecidableEq

/-- `ChargingSchedulePeriod.to_dict`. -/
def period_to_dict (p : ChargingSchedulePeriod) : PeriodDict :=
  { startPeriod := some p.start_period, limit := some p.limit,
    numberPhases := p.number_phases }

/-- `ChargingSchedule.to_dict`. -/
def schedule_to_dict (s : ChargingSchedule) : ScheduleDict :=
  { chargingRateUnit := some (rate_unit_to_string s.charging_rate_unit),
    chargingSchedulePeriod := some (s.charging_schedule_period.map period_to_dict),
    duration := s.duration,
    startSchedule := s.start_schedule,
    minChargingRate := s.min_charging_rate }

/-- `ChargingProfile.to_dict`. -/
def profile_to_dict (p : ChargingProfile) : ProfileDict :=
  { chargingProfileId := some p.charging_profile_id,
    stackLevel := some p.stack_level,
    chargingProfilePurpose := some (purpose_to_string p.charging_profile_purpose),
    chargingProfileKind := some (kind_to_string p.charging_profile_kind),
    chargingSchedule := some (schedule_to_dict p.charging_schedule),
    transactionId := p.transaction_id,
    recurrencyKind := p.recurrency_kind.map recurrency_to_string,
    validFrom := p.valid_from,
    validTo := p.valid_to }

/-- The per-period part of the parsing loop in `parse_charging_profile`. -/
def parse_period (d : PeriodDict) : Except String ChargingSchedulePeriod :=
  match d.startPeriod with
  | none => Except.error "Missing required field in period: startPeriod"
  | some sp =>
    match d.limit with
    | none => Except.error "Missing required field in period: limit"
    | some l =>
      Except.ok { start_period := sp, limit := l, number_phases := d.numberPhases }

/-- The period-list parsing loop. -/
def parse_periods : List PeriodDict → Except String (List ChargingSchedulePeriod)
  | [] => Except.ok []
  | d :: rest =>
    match parse_period d with
    | Except.error e => Except.error e
    | Except.ok per =>
      match parse_periods rest with
      | Except.error e => Except.error e
      | Except.ok pers => Except.ok (per :: pers)

/-- `parse_charging_profile`, with the source's check order: required
top-level fields, schedule fields, rate unit, periods, then purpose,
kind, recurrency. -/
def parse_charging_profile (d : ProfileDict) : Except String ChargingProfile :=
  match d.chargingProfileId with
  | none => Except.error "Missing required field: chargingProfileId"
  | some pid =>
  match d.stackLevel with
  | none => Except.error "Missing required field: stackLevel"
  | some sl =>
  match d.chargingProfilePurpose with
  | none => Except.error "Missing required field: chargingProfilePurpose"
  | some purpose_str =>
  match d.chargingProfileKind with
  | none => Except.error "Missing required field: chargingProfileKind"
  | some kind_str =>
  match d.chargingSchedule with
  | none => Except.error "Missing required field: chargingSchedule"
  | some schedule_dict =>
  match schedule_dict.chargingRateUnit with
  | none => Except.error "Missing required field in chargingSchedule: chargingRateUnit"
  | some unit_str =>
  match schedule_dict.chargingSchedulePeriod with
  | none => Except.error "Missing required field in chargingSchedule: chargingSchedulePeriod"
  | some period_dicts =>
  match rate_unit_from_string unit_str with
  | none => Except.error "Invalid chargingRateUnit"
  | some rate_unit =>
  match parse_periods period_dicts with
  | Except.error e => Except.error e
  | Except.ok periods =>
  match purpose_from_string purpose_str with
  | none => Except.error "Invalid chargingProfilePurpose"
  | some purpose =>
  match kind_from_string kind_str with
  | none => Except.error "Invalid chargingProfileKind"
  | some kind =>
  match d.recurrencyKind with
  | some rk_str =>
    (match recurrency_from_string rk_str with
     | none => Except.error "Invalid recurrencyKind"
     | some rk =>
       Except.ok { charging_profile_id := pid, stack_level := sl,
                   charging_profile_purpose := purpose, charging_profile_kind := kind,
                   charging_schedule :=
                     { charging_rate_unit := rate_unit,
                       charging_schedule_period := periods,
                       duration := schedule_dict.duration,
                       start_schedule := schedule_dict.startSchedule,
                       min_charging_rate := schedule_dict.minChargingRate },
                   transaction_id := d.transactionId,
                   recurrency_kind := some rk,
                   valid_from := d.validFrom, valid_to := d.validTo })
  | none =>
    Except.ok { charging_profile_id := pid, stack_level := sl,
                charging_profile_purpose := purpose, charging_profile_kind := kind,
                charging_schedule :=
                  { charging_rate_unit := rate_unit,
                    charging_schedule_period := periods,
                    duration := schedule_dict.duration,
                    start_schedule := schedule_dict.startSchedule,
                    min_charging_rate := schedule_dict.minChargingRate },
                transaction_id := d.transactionId,
                recurrency_kind := none,
                valid_from := d.validFrom, valid_to := d.validTo }

/-! ## Store lemmas -/

/-- Reading after a write: the written connector sees the new list, all
others are untouched. -/
theorem Store.read_set (s : Store) (c : Int) (l : List ChargingProfile) (c' : Int) :
    (s.set c l).read c' = if c' = c then l else s.read c' := by
  unfold Store.set Store.read
  by_cases h : c' = c
  · subst h
    by_cases hk : c' ∈ s.keys <;> simp [hk]
  · by_cases hk : c ∈ s.keys <;> simp [hk, h]

/-- An absent connector reads as the empty list. -/
theorem Store.read_of_not_mem (s : Store) (c : Int) (h : c ∉ s.keys) :
    s.read c = [] := by
  simp [Store.read, h]

/-! ## C10 — rejected `add_profile` leaves every connector unchanged -/

/-- On any failure, `add_profile` returns the store it was given: the
validation branch fails before touching it, and a stack-level conflict is
only possible when the connector entry already existed. -/
theorem add_profile_store_eq_of_failure (store : Store) (connector_id : Int)
    (p : ChargingProfile) (h : (add_profile store connector_id p).1 = false) :
    (add_profile store connector_id p).2.2 = store := by
  unfold add_profile at h ⊢
  by_cases hv : ((!(validate_charging_profile p).1) = true)
  · rw [if_pos hv]
  · rw [if_neg hv] at h ⊢
    by_cases hc : (((if connector_id ∈ store.keys then store
          else store.set connector_id []).read connector_id).any fun e =>
        decide (e.charging_profile_purpose = p.charging_profile_purpose ∧
                e.stack_level = p.stack_level)) = true
    · rw [if_pos hc]
      by_cases hk : connector_id ∈ store.keys
      · rw [if_pos hk]
      · exfalso
        rw [if_neg hk] at hc
        rw [Store.read_set] at hc
        simp at hc
    · rw [if_neg hc] at h
      simp at h

/-- C10: `add_profile` is atomic on failure — if it returns failure (from
validation or from a stack-level conflict), every connector's stored
profile sequence is exactly as before the call. -/
theorem add_profile_atomic_on_failure (store : Store) (connector_id : Int)
    (p : ChargingProfile) (h : (add_profile store connector_id p).1 = false) :
    ∀ c, (add_profile store connector_id p).2.2.read c = store.read c := by
  intro c
  rw [add_profile_store_eq_of_failure store connector_id p h]

/-- A concrete invalid profile (non-positive id). -/
def demo_invalid_profile : ChargingProfile :=
  { charging_profile_id := 0, stack_level := 0,
    charging_profile_purpose := ChargingProfilePurpose.chargePointMaxProfile,
    charging_profile_kind := ChargingProfileKind.absolute,
    charging_schedule :=
      { charging_rate_unit := ChargingRateUnit.watts,
        charging_schedule_period := [{ start_period := 0, limit := 1, number_phases := none }],
        duration := none, start_schedule := some 0, min_charging_rate := none },
    transaction_id := none, recurrency_kind := none,
    valid_from := none, valid_to := none }

/-- Witness for C10 at a concrete rejected profile. -/
theorem add_profile_atomic_on_failure_witness :
    (add_profile emptyStore 1 demo_invalid_profile).1 = false ∧
    (add_profile emptyStore 1 demo_invalid_profile).2.2.read 1 = emptyStore.read 1 :=
  ⟨by decide, add_profile_atomic_on_failure emptyStore 1 demo_invalid_profile (by decide) 1⟩

/-! ## C6 — policy rule order -/

/-- C6: `evaluate_charging_policy` applies exactly four rules in order
with first match winning — energy cap gives pause; otherwise a price
strictly above the threshold gives wait (equality charges); otherwise a
blocked peak hour gives wait; otherwise charge. In particular, all three
conditions at once give pause, and price exactly at the threshold with no
earlier rule firing gives charge. -/
theorem evaluate_charging_policy_rule_order (s : StationState) (cfg : PolicyConfig)
    (env : PolicyEnv) :
    (s.energy_dispensed ≥ cfg.max_energy_kwh →
      (evaluate_charging_policy s cfg env).action = PolicyAction.pause) ∧
    (¬ s.energy_dispensed ≥ cfg.max_energy_kwh →
      env.current_price > cfg.charge_if_price_below →
      (evaluate_charging_policy s cfg env).action = PolicyAction.wait) ∧
    (¬ s.energy_dispensed ≥ cfg.max_energy_kwh →
      ¬ env.current_price > cfg.charge_if_price_below →
      env.hour ∈ cfg.peak_hours ∧ ¬ cfg.allow_peak_hours = true →
      (evaluate_charging_policy s cfg env).action = PolicyAction.wait) ∧
    (¬ s.energy_dispensed ≥ cfg.max_energy_kwh →
      ¬ env.current_price > cfg.charge_if_price_below →
      ¬ (env.hour ∈ cfg.peak_hours ∧ ¬ cfg.allow_peak_hours = true) →
      (evaluate_charging_policy s cfg env).action = PolicyAction.charge) ∧
    (env.current_price = cfg.charge_if_price_below →
      ¬ s.energy_dispensed ≥ cfg.max_energy_kwh →
      ¬ (env.hour ∈ cfg.peak_hours ∧ ¬ cfg.allow_peak_hours = true) →
      (evaluate_charging_policy s cfg env).action = PolicyAction.charge) := by
  unfold evaluate_charging_policy
  refine ⟨fun h1 => by rw [if_pos h1],
          fun h1 h2 => by rw [if_neg h1, if_pos h2],
          fun h1 h2 h3 => by rw [if_neg h1, if_neg h2, if_pos h3],
          fun h1 h2 h3 => by rw [if_neg h1, if_neg h2, if_neg h3],
          fun he h1 h3 => by
            rw [if_neg h1, if_neg (by rw [he]; exact lt_irrefl _), if_neg h3]⟩

/-- Witness for C6: scenario S5 (all three conditions at once gives
pause) and the price-equality boundary (charges). -/
theorem evaluate_charging_policy_rule_order_witness :
    (evaluate_charging_policy
      { energy_dispensed := 30, charging := true, session_active := true }
      { charge_if_price_below := 25, max_energy_kwh := 30,
        allow_peak_hours := false, peak_hours := [18, 19, 20] }
      { current_price := 50, hour := 19 }).action = PolicyAction.pause ∧
    (evaluate_charging_policy
      { energy_dispensed := 10, charging := true, session_active := true }
      { charge_if_price_below := 25, max_energy_kwh := 30,
        allow_peak_hours := false, peak_hours := [18, 19, 20] }
      { current_price := 25, hour := 7 }).action = PolicyAction.charge :=
  ⟨(evaluate_charging_policy_rule_order _ _ _).1 (by norm_num),
   (evaluate_charging_policy_rule_order _ _ _).2.2.2.2 rfl (by norm_num) (by decide)⟩

/-! ## C7 — Recurring-Daily effective schedule start -/

/-- Splitting a timestamp into its day and time-of-day components. -/
theorem dayStart_add_timeOfDay (t : Int) : dayStart t + timeOfDay t = t := by
  unfold dayStart timeOfDay
  omega

/-- C7: for a Recurring-Daily profile with startSchedule `ss`, the
effective schedule start at `now` is the projection of `ss`'s time-of-day
onto `now`'s date when that projection is at most `now`, and otherwise
that same time-of-day one day earlier; in particular a query earlier in
the day than `ss`'s time-of-day uses yesterday's occurrence. -/
theorem effective_start_recurring_daily (p : ChargingProfile) (now : Int)
    (transaction_start : Option Int) (ss : Int)
    (hk : p.charging_profile_kind = ChargingProfileKind.recurring)
    (hr : p.recurrency_kind = some RecurrencyKind.daily)
    (hs : p.charging_schedule.start_schedule = some ss) :
    get_effective_schedule_start p now transaction_start =
      some (if dayStart now + timeOfDay ss ≤ now then dayStart now + timeOfDay ss
            else dayStart now + timeOfDay ss - 86400) ∧
    (timeOfDay now < timeOfDay ss →
      get_effective_schedule_start p now transaction_start =
        some (dayStart now + timeOfDay ss - 86400)) := by
  have hmain : get_effective_schedule_start p now transaction_start =
      some (if dayStart now + timeOfDay ss ≤ now then dayStart now + timeOfDay ss
            else dayStart now + timeOfDay ss - 86400) := by
    unfold get_effective_schedule_start
    rw [hk, hs, hr]
    simp only
    by_cases h : dayStart now + timeOfDay ss ≤ now
    · rw [if_neg (by omega), if_pos h]
    · rw [if_pos (by omega), if_neg h]
  refine ⟨hmain, fun hlt => ?_⟩
  rw [hmain, if_neg ?_]
  have hsplit := dayStart_add_timeOfDay now
  omega

/-- A Recurring-Daily demo profile whose schedule starts at 08:00. -/
def demo_daily_profile : ChargingProfile :=
  { charging_profile_id := 1, stack_level := 0,
    charging_profile_purpose := ChargingProfilePurpose.txDefaultProfile,
    charging_profile_kind := ChargingProfileKind.recurring,
    charging_schedule :=
      { charging_rate_unit := ChargingRateUnit.watts,
        charging_schedule_period := [{ start_period := 0, limit := 11000, number_phases := none }],
        duration := some 7200, start_schedule := some 28800, min_charging_rate := none },
    transaction_id := none, recurrency_kind := some RecurrencyKind.daily,
    valid_from := none, valid_to := none }

/-- Witness for C7: a query at 06:00 against a daily 08:00 schedule uses
yesterday's occurrence. -/
theorem effective_start_recurring_daily_witness :
    get_effective_schedule_start demo_daily_profile (7 * 86400 + 21600) none =
      some (6 * 86400 + 28800) := by
  have h := (effective_start_recurring_daily demo_daily_profile (7 * 86400 + 21600) none 28800
    rfl rfl rfl).2 (by decide)
  rw [h]
  decide

/-! ## C4 — period ordering accepted by validation -/

/-- The validation loop accepts a period list iff adjacent `startPeriod`
values are non-decreasing. -/
theorem periods_sorted_ok_iff (ps : List ChargingSchedulePeriod) :
    periods_sorted_ok ps = true ↔
      List.Chain' (fun a b => a.start_period ≤ b.start_period) ps := by
  induction ps with
  | nil => simp [periods_sorted_ok]
  | cons a tail ih =>
    cases tail with
    | nil => simp [periods_sorted_ok]
    | cons b rest =>
      rw [List.chain'_cons, ← ih]
      simp [periods_sorted_ok]

/-- A profile that validates has its period list accepted by the
sortedness loop. -/
theorem validate_true_implies_sorted (p : ChargingProfile)
    (h : (validate_charging_profile p).1 = true) :
    periods_sorted_ok p.charging_schedule.charging_schedule_period = true := by
  unfold validate_charging_profile at h
  split_ifs at h
  all_goals simp_all

/-- C4 (amended): validation fails — and `add_profile` therefore fails —
exactly on a strict decrease: whenever some adjacent pair of periods has
the later `startPeriod` strictly below the earlier one. Equal adjacent
`startPeriod` values are accepted (the check is non-strict). -/
theorem validate_rejects_decreasing_periods (p : ChargingProfile)
    (h : ¬ List.Chain' (fun a b => a.start_period ≤ b.start_period)
      p.charging_schedule.charging_schedule_period) :
    (validate_charging_profile p).1 = false ∧
    ∀ store c, (add_profile store c p).1 = false := by
  have hv : (validate_charging_profile p).1 = false := by
    cases hvb : (validate_charging_profile p).1
    · rfl
    · exact absurd ((periods_sorted_ok_iff _).mp (validate_true_implies_sorted p hvb)) h
  refine ⟨hv, fun store c => ?_⟩
  simp only [add_profile]
  rw [hv]
  simp

/-- A profile with two periods sharing `startPeriod = 0`. -/
def demo_equal_start_profile : ChargingProfile :=
  { charging_profile_id := 1, stack_level := 0,
    charging_profile_purpose := ChargingProfilePurpose.chargePointMaxProfile,
    charging_profile_kind := ChargingProfileKind.absolute,
    charging_schedule :=
      { charging_rate_unit := ChargingRateUnit.watts,
        charging_schedule_period :=
          [{ start_period := 0, limit := 10, number_phases := none },
           { start_period := 0, limit := 20, number_phases := none }],
        duration := none, start_schedule := some 0, min_charging_rate := none },
    transaction_id := none, recurrency_kind := none,
    valid_from := none, valid_to := none }

/-- Counterexample to C4 as stated: two consecutive periods with equal
`startPeriod` pass validation, and `add_profile` accepts the profile. -/
theorem validate_accepts_equal_start_periods :
    (validate_charging_profile demo_equal_start_profile).1 = true ∧
    (add_profile emptyStore 1 demo_equal_start_profile).1 = true := by
  decide

/-- A profile with strictly decreasing `startPeriod` values. -/
def demo_decreasing_profile : ChargingProfile :=
  { charging_profile_id := 1, stack_level := 0,
    charging_profile_purpose := ChargingProfilePurpose.chargePointMaxProfile,
    charging_profile_kind := ChargingProfileKind.absolute,
    charging_schedule :=
      { charging_rate_unit := ChargingRateUnit.watts,
        charging_schedule_period :=
          [{ start_period := 10, limit := 5, number_phases := none },
           { start_period := 0, limit := 5, number_phases := none }],
        duration := none, start_schedule := some 0, min_charging_rate := none },
    transaction_id := none, recurrency_kind := none,
    valid_from := none, valid_to := none }

/-- Witness for the amended C4 at a concrete decreasing profile. -/
theorem validate_rejects_decreasing_periods_witness :
    (validate_charging_profile demo_decreasing_profile).1 = false ∧
    (add_profile emptyStore 1 demo_decreasing_profile).1 = false :=
  ⟨(validate_rejects_decreasing_periods demo_decreasing_profile
      (by simp [demo_decreasing_profile, List.chain'_cons])).1,
   (validate_rejects_decreasing_periods demo_decreasing_profile
      (by simp [demo_decreasing_profile, List.chain'_cons])).2 emptyStore 1⟩

/-! ## C2 — conflict check versus same-id replacement -/

/-- A valid demo profile under id 1. -/
def demo_replaceable_profile : ChargingProfile :=
  { charging_profile_id := 1, stack_level := 0,
    charging_profile_purpose := ChargingProfilePurpose.chargePointMaxProfile,
    charging_profile_kind := ChargingProfileKind.absolute,
    charging_schedule :=
      { charging_rate_unit := ChargingRateUnit.watts,
        charging_schedule_period := [{ start_period := 0, limit := 11000, number_phases := none }],
        duration := none, start_schedule := some 0, min_charging_rate := none },
    transaction_id := none, recurrency_kind := none,
    valid_from := none, valid_to := none }

/-- Counterexample to C2 as stated: re-adding the very same profile
unchanged is rejected, because the stack-level conflict check runs before
the same-id replacement. -/
theorem add_profile_readd_same_id_rejected :
    (add_profile emptyStore 1 demo_replaceable_profile).1 = true ∧
    (add_profile (add_profile emptyStore 1 demo_replaceable_profile).2.2 1
      demo_replaceable_profile).1 = false := by
  decide

/-- C2 (amended): for a valid profile, `add_profile` checks
`(purpose, stackLevel)` uniqueness against all profiles currently stored
on the connector — including any profile with the same id — and only
afterwards removes same-id profiles; so the add succeeds iff no stored
profile at all collides, and on success the same-id profiles are removed
and the new profile appended. -/
theorem add_profile_conflict_then_replace (store : Store) (c : Int)
    (p : ChargingProfile) (hv : (validate_charging_profile p).1 = true) :
    ((add_profile store c p).1 = true ↔
      ∀ q ∈ store.read c,
        ¬ (q.charging_profile_purpose = p.charging_profile_purpose ∧
           q.stack_level = p.stack_level)) ∧
    ((add_profile store c p).1 = true →
      (add_profile store c p).2.2.read c =
        (store.read c).filter
          (fun q => decide (q.charging_profile_id ≠ p.charging_profile_id)) ++ [p]) := by
  simp only [add_profile]
  rw [hv]
  simp only [Bool.not_true, Bool.false_eq_true, if_false]
  have hread : (if c ∈ store.keys then store else store.set c []).read c = store.read c := by
    by_cases hk : c ∈ store.keys
    · rw [if_pos hk]
    · rw [if_neg hk, Store.read_set, if_pos rfl, Store.read_of_not_mem store c hk]
  rw [hread]
  by_cases hc : ((store.read c).any fun e =>
      decide (e.charging_profile_purpose = p.charging_profile_purpose ∧
              e.stack_level = p.stack_level)) = true
  · rw [if_pos hc]
    constructor
    · constructor
      · intro h; simp at h
      · intro hall
        exfalso
        rw [List.any_eq_true] at hc
        obtain ⟨q, hq, hq2⟩ := hc
        exact hall q hq (by simpa using hq2)
    · intro h; simp at h
  · rw [if_neg hc]
    constructor
    · constructor
      · intro _ q hq hcontra
        apply hc
        rw [List.any_eq_true]
        exact ⟨q, hq, by simpa using hcontra⟩
      · intro _; rfl
    · intro _
      rw [Store.read_set, if_pos rfl]

/-- Witness for the amended C2: adding to an empty connector succeeds. -/
theorem add_profile_conflict_then_replace_witness :
    (add_profile emptyStore 1 demo_replaceable_profile).1 = true :=
  (add_profile_conflict_then_replace emptyStore 1 demo_replaceable_profile
    (by decide)).1.mpr (by simp [Store.read, emptyStore])

/-! ## C1 — `get_current_limit` returns the pointwise minimum -/

/-- The running-minimum fold yields `none` iff it starts from `none` and
every profile in the list contributes no limit. -/
theorem min_limit_fold_go_none (now : Int) (ps : List ChargingProfile) :
    ∀ acc : Option ℚ,
      ps.foldl (fun acc p =>
        match get_limit_at_time p now none with
        | none => acc
        | some l =>
          match acc with
          | none => some l
          | some m => if l < m then some l else some m) acc = none ↔
      acc = none ∧ ∀ p ∈ ps, get_limit_at_time p now none = none := by
  induction ps with
  | nil => simp
  | cons q qs ih =>
    intro acc
    rw [List.foldl_cons, ih]
    cases hq : get_limit_at_time q now none with
    | none => simp [hq]
    | some l =>
      cases acc with
      | none => simp [hq]
      | some a =>
        by_cases hla : l < a <;> simp [hq, hla]

/-- The running-minimum fold is a lower bound on its start value and on
every contribution. -/
theorem min_limit_fold_go_le (now : Int) (ps : List ChargingProfile) :
    ∀ (acc : Option ℚ) (m : ℚ),
      ps.foldl (fun acc p =>
        match get_limit_at_time p now none with
        | none => acc
        | some l =>
          match acc with
          | none => some l
          | some m => if l < m then some l else some m) acc = some m →
      (∀ a, acc = some a → m ≤ a) ∧
      (∀ p ∈ ps, ∀ v, get_limit_at_time p now none = some v → m ≤ v) := by
  induction ps with
  | nil =>
    intro acc m h
    rw [List.foldl_nil] at h
    refine ⟨fun a ha => ?_, by simp⟩
    have hma := h.symm.trans ha
    injection hma with h'
    exact h'.le
  | cons q qs ih =>
    intro acc m h
    rw [List.foldl_cons] at h
    cases hq : get_limit_at_time q now none with
    | none =>
      simp only [hq] at h
      have ih' := ih acc m h
      refine ⟨ih'.1, fun p hp v hv => ?_⟩
      rcases List.mem_cons.mp hp with rfl | tail
      · rw [hq] at hv; cases hv
      · exact ih'.2 p tail v hv
    | some l =>
      cases acc with
      | none =>
        simp only [hq] at h
        have ih' := ih (some l) m h
        refine ⟨fun a ha => ?_, fun p hp v hv => ?_⟩
        · cases ha
        · rcases List.mem_cons.mp hp with rfl | tail
          · rw [hq] at hv
            injection hv with h'
            exact h' ▸ ih'.1 l rfl
          · exact ih'.2 p tail v hv
      | some a =>
        simp only [hq] at h
        by_cases hla : l < a
        · rw [if_pos hla] at h
          have ih' := ih (some l) m h
          have hml : m ≤ l := ih'.1 l rfl
          refine ⟨fun a' ha' => ?_, fun p hp v hv => ?_⟩
          · injection ha' with h'
            exact h' ▸ (hml.trans hla.le)
          · rcases List.mem_cons.mp hp with rfl | tail
            · rw [hq] at hv
              injection hv with h'
              exact h' ▸ hml
            · exact ih'.2 p tail v hv
        · rw [if_neg hla] at h
          have ih' := ih (some a) m h
          have hma : m ≤ a := ih'.1 a rfl
          refine ⟨fun a' ha' => ?_, fun p hp v hv => ?_⟩
          · injection ha' with h'
            exact h' ▸ hma
          · rcases List.mem_cons.mp hp with rfl | tail
            · rw [hq] at hv
              injection hv with h'
              exact h' ▸ (hma.trans (not_lt.mp hla))
            · exact ih'.2 p tail v hv

/-- A `some` result of the running-minimum fold is its start value or a
contribution of some profile in the list. -/
theorem min_limit_fold_go_mem (now : Int) (ps : List ChargingProfile) :
    ∀ (acc : Option ℚ) (m : ℚ),
      ps.foldl (fun acc p =>
        match get_limit_at_time p now none with
        | none => acc
        | some l =>
          match acc with
          | none => some l
          | some m => if l < m then some l else some m) acc = some m →
      acc = some m ∨ ∃ p ∈ ps, get_limit_at_time p now none = some m := by
  induction ps with
  | nil =>
    intro acc m h
    rw [List.foldl_nil] at h
    exact Or.inl h
  | cons q qs ih =>
    intro acc m h
    rw [List.foldl_cons] at h
    cases hq : get_limit_at_time q now none with
    | none =>
      simp only [hq] at h
      rcases ih acc m h with hacc | ⟨p, hp, hpl⟩
      · exact Or.inl hacc
      · exact Or.inr ⟨p, List.mem_cons_of_mem _ hp, hpl⟩
    | some l =>
      cases acc with
      | none =>
        simp only [hq] at h
        rcases ih (some l) m h with hacc | ⟨p, hp, hpl⟩
        · injection hacc with h'
          exact Or.inr ⟨q, List.mem_cons_self _ _, by rw [hq, h']⟩
        · exact Or.inr ⟨p, List.mem_cons_of_mem _ hp, hpl⟩
      | some a =>
        simp only [hq] at h
        by_cases hla : l < a
        · rw [if_pos hla] at h
          rcases ih (some l) m h with hacc | ⟨p, hp, hpl⟩
          · injection hacc with h'
            exact Or.inr ⟨q, List.mem_cons_self _ _, by rw [hq, h']⟩
          · exact Or.inr ⟨p, List.mem_cons_of_mem _ hp, hpl⟩
        · rw [if_neg hla] at h
          rcases ih (some a) m h with hacc | ⟨p, hp, hpl⟩
          · exact Or.inl hacc
          · exact Or.inr ⟨p, List.mem_cons_of_mem _ hp, hpl⟩

/-- `min_limit_fold` specialisation: `none` iff no contribution. -/
theorem min_limit_fold_eq_none_iff (ps : List ChargingProfile) (now : Int) :
    min_limit_fold ps now = none ↔ ∀ p ∈ ps, get_limit_at_time p now none = none := by
  unfold min_limit_fold
  rw [min_limit_fold_go_none]
  simp

/-- `min_limit_fold` specialisation: a `some` result is attained and is a
lower bound on all contributions. -/
theorem min_limit_fold_eq_some (ps : List ChargingProfile) (now : Int) (m : ℚ)
    (h : min_limit_fold ps now = some m) :
    (∃ p ∈ ps, get_limit_at_time p now none = some m) ∧
    (∀ p ∈ ps, ∀ v, get_limit_at_time p now none = some v → m ≤ v) := by
  unfold min_limit_fold at h
  refine ⟨?_, (min_limit_fold_go_le now ps none m h).2⟩
  rcases min_limit_fold_go_mem now ps none m h with hacc | hmem
  · cases hacc
  · exact hmem

/-- Membership in the filtered candidate list of `get_current_limit`. -/
theorem mem_current_limit_filter (store : Store) (connector_id now : Int)
    (tx : Option Int) (p : ChargingProfile) :
    p ∈ (collect_profiles store connector_id).filter (fun p =>
        is_profile_valid_at_time p now && tx_profile_applicable p tx) ↔
      p ∈ collect_profiles store connector_id ∧
      is_profile_valid_at_time p now = true ∧ tx_profile_applicable p tx = true := by
  rw [List.mem_filter, Bool.and_eq_true]

/-- C1: whenever `get_current_limit` returns a limit `L`, `L` is attained
by an applicable profile and no applicable profile (stored on connector 0
or on the queried connector, time-valid at `now`, Tx-purpose only with a
matching transaction id) contributes a limit below `L`; and the result is
`none` exactly when no applicable profile contributes a limit. -/
theorem get_current_limit_minimum (store : Store) (connector_id now : Int)
    (tx : Option Int) :
    (get_current_limit store connector_id now tx = none ↔
      ∀ p ∈ collect_profiles store connector_id,
        is_profile_valid_at_time p now = true → tx_profile_applicable p tx = true →
        get_limit_at_time p now none = none) ∧
    (∀ L, get_current_limit store connector_id now tx = some L →
      (∃ p, (p ∈ collect_profiles store connector_id ∧
             is_profile_valid_at_time p now = true ∧
             tx_profile_applicable p tx = true) ∧
            get_limit_at_time p now none = some L) ∧
      (∀ p ∈ collect_profiles store connector_id,
        is_profile_valid_at_time p now = true → tx_profile_applicable p tx = true →
        ∀ v, get_limit_at_time p now none = some v → L ≤ v)) := by
  simp only [get_current_limit]
  by_cases hall : (collect_profiles store connector_id).isEmpty = true
  · rw [if_pos hall]
    have hnil : collect_profiles store connector_id = [] := by
      simpa using hall
    constructor
    · simp [hnil]
    · intro L hL
      cases hL
  · rw [if_neg hall]
    by_cases hvalid : ((collect_profiles store connector_id).filter (fun p =>
        is_profile_valid_at_time p now && tx_profile_applicable p tx)).isEmpty = true
    · rw [if_pos hvalid]
      have hnil : (collect_profiles store connector_id).filter (fun p =>
          is_profile_valid_at_time p now && tx_profile_applicable p tx) = [] := by
        simpa using hvalid
      constructor
      · constructor
        · intro _ p hp h1 h2
          have : p ∈ (collect_profiles store connector_id).filter (fun p =>
              is_profile_valid_at_time p now && tx_profile_applicable p tx) :=
            (mem_current_limit_filter store connector_id now tx p).mpr ⟨hp, h1, h2⟩
          rw [hnil] at this
          cases this
        · intro _
          rfl
      · intro L hL
        cases hL
    · rw [if_neg hvalid]
      constructor
      · rw [min_limit_fold_eq_none_iff]
        constructor
        · intro h p hp h1 h2
          exact h p ((mem_current_limit_filter store connector_id now tx p).mpr ⟨hp, h1, h2⟩)
        · intro h p hp
          obtain ⟨hmem, h1, h2⟩ := (mem_current_limit_filter store connector_id now tx p).mp hp
          exact h p hmem h1 h2
      · intro L hL
        obtain ⟨⟨p, hp, hpl⟩, hle⟩ := min_limit_fold_eq_some _ now L hL
        refine ⟨⟨p, (mem_current_limit_filter store connector_id now tx p).mp hp, hpl⟩,
          fun q hq h1 h2 v hv => ?_⟩
        exact hle q ((mem_current_limit_filter store connector_id now tx q).mpr ⟨hq, h1, h2⟩) v hv

/-- A one-profile store on connector 1 for concrete resolver queries. -/
def demo_limit_store : Store :=
  { keys := [1], map := fun c => if c = 1 then [demo_replaceable_profile] else [] }

/-- Witness for C1: at a concrete store the returned limit 11000 is
attained by an applicable profile. -/
theorem get_current_limit_minimum_witness :
    ∃ p, (p ∈ collect_profiles demo_limit_store 1 ∧
          is_profile_valid_at_time p 0 = true ∧
          tx_profile_applicable p none = true) ∧
         get_limit_at_time p 0 none = some 11000 :=
  ((get_current_limit_minimum demo_limit_store 1 0 none).2 11000 (by decide)).1

/-! ## C5 — the metering tick and the resolver query -/

/-- C5 (code bug): every metering tick of `auto_transaction_loop` fails
with `NameError` at the resolver query (`station.py` line 658) — `self`
is unbound inside the nested loop, whose charge point object is the
local `cp` — so the tick never queries the resolver and never computes
the step `min(baseStep, limit × interval/3600)`; the behavior the claim
(and the spec, §4.E step 6) describes is unreachable. -/
theorem meter_tick_raises_name_error (store : Store)
    (connector_id transaction_id : Int)
    (now base_step sample_interval_seconds : Int)
    (charge_if_price_below max_energy_kwh : ℚ) (allow_peak : Bool)
    (peak_hours : Int × Int) (current_price : ℚ) (hour : Int)
    (self_energy max_energy_wh : ℚ) :
    meter_tick store connector_id transaction_id now base_step
      sample_interval_seconds charge_if_price_below max_energy_kwh allow_peak
      peak_hours current_price hour self_energy max_energy_wh =
      Except.error "NameError: name self is not defined" := rfl

/-! ## C8 — `ClearChargingProfile` with `connectorId = 0` -/

/-- A profile can only be read from a connector that is a store key. -/
theorem Store.mem_keys_of_read (s : Store) (c : Int) (p : ChargingProfile)
    (hp : p ∈ s.read c) : c ∈ s.keys := by
  by_contra hc
  rw [Store.read_of_not_mem s c hc] at hp
  cases hp

/-- `clear_profile` filters the targeted connector and leaves the rest. -/
theorem clear_profile_read (s : Store) (c : Int) (pid : Option Int)
    (pu : Option ChargingProfilePurpose) (sl : Option Int) (c' : Int) :
    (clear_profile s c pid pu sl).2.read c' =
      if c' = c then (s.read c).filter (fun p => ! matches_criteria pid pu sl p)
      else s.read c' := by
  simp only [clear_profile]
  by_cases hk : c ∈ s.keys
  · rw [if_pos hk]
    dsimp only
    rw [Store.read_set]
  · rw [if_neg hk]
    dsimp only
    by_cases hcc : c' = c
    · subst hcc
      rw [if_pos rfl, Store.read_of_not_mem s c' hk]
      rfl
    · rw [if_neg hcc]

/-- `clear_profile` removes something iff some stored profile matches. -/
theorem clear_profile_count_pos (s : Store) (c : Int) (pid : Option Int)
    (pu : Option ChargingProfilePurpose) (sl : Option Int) :
    0 < (clear_profile s c pid pu sl).1 ↔
      ∃ p ∈ s.read c, matches_criteria pid pu sl p = true := by
  simp only [clear_profile]
  by_cases hk : c ∈ s.keys
  · rw [if_pos hk]
    dsimp only
    rw [Nat.sub_pos_iff_lt, List.length_filter_lt_length_iff_exists]
    simp
  · rw [if_neg hk]
    dsimp only
    rw [Store.read_of_not_mem s c hk]
    simp

/-- The clear-all loop filters every listed connector and leaves the
others untouched. -/
theorem clear_all_connectors_read (pid : Option Int)
    (pu : Option ChargingProfilePurpose) (sl : Option Int) (ks : List Int) :
    ∀ (s : Store) (c : Int),
      (clear_all_connectors s ks pid pu sl).2.read c =
        if c ∈ ks then (s.read c).filter (fun p => ! matches_criteria pid pu sl p)
        else s.read c := by
  induction ks with
  | nil =>
    intro s c
    simp [clear_all_connectors]
  | cons k rest ih =>
    intro s c
    simp only [clear_all_connectors]
    rw [ih]
    by_cases hck : c = k
    · subst hck
      by_cases hcr : c ∈ rest
      · rw [if_pos hcr, if_pos (List.mem_cons_self _ _), clear_profile_read, if_pos rfl,
          List.filter_filter]
        exact List.filter_congr (fun a _ => Bool.and_self _)
      · rw [if_neg hcr, if_pos (List.mem_cons_self _ _), clear_profile_read, if_pos rfl]
    · by_cases hcr : c ∈ rest
      · rw [if_pos hcr, clear_profile_read, if_neg hck,
          if_pos (List.mem_cons_of_mem _ hcr)]
      · rw [if_neg hcr, clear_profile_read, if_neg hck,
          if_neg (by simp [List.mem_cons, hck, hcr])]

/-- The clear-all loop removes something iff some listed connector stores
a matching profile. -/
theorem clear_all_connectors_count_pos (pid : Option Int)
    (pu : Option ChargingProfilePurpose) (sl : Option Int) (ks : List Int) :
    ∀ s : Store,
      0 < (clear_all_connectors s ks pid pu sl).1 ↔
        ∃ k ∈ ks, ∃ p ∈ s.read k, matches_criteria pid pu sl p = true := by
  induction ks with
  | nil =>
    intro s
    simp [clear_all_connectors]
  | cons k rest ih =>
    intro s
    simp only [clear_all_connectors]
    have hsplit : 0 < (clear_profile s k pid pu sl).1 +
        (clear_all_connectors (clear_profile s k pid pu sl).2 rest pid pu sl).1 ↔
        0 < (clear_profile s k pid pu sl).1 ∨
        0 < (clear_all_connectors (clear_profile s k pid pu sl).2 rest pid pu sl).1 := by
      omega
    rw [hsplit, clear_profile_count_pos, ih]
    constructor
    · rintro (⟨p, hp, hm⟩ | ⟨k', hk', p, hp, hm⟩)
      · exact ⟨k, List.mem_cons_self _ _, p, hp, hm⟩
      · rw [clear_profile_read] at hp
        by_cases hkk : k' = k
        · rw [if_pos hkk] at hp
          rw [List.mem_filter] at hp
          rw [hp.2.symm] at hm
          simp at hm
        · rw [if_neg hkk] at hp
          exact ⟨k', List.mem_cons_of_mem _ hk', p, hp, hm⟩
    · rintro ⟨k', hk', p, hp, hm⟩
      rcases List.mem_cons.mp hk' with rfl | htail
      · exact Or.inl ⟨p, hp, hm⟩
      · by_cases hkk : k' = k
        · subst hkk
          exact Or.inl ⟨p, hp, hm⟩
        · refine Or.inr ⟨k', htail, p, ?_, hm⟩
          rw [clear_profile_read, if_neg hkk]
          exact hp

/-- C8: with `connectorId` 0 or absent, the AND-filter clear is applied to
every connector's profile list (connector 0 included), and the response is
`Accepted` iff at least one profile was removed. -/
theorem on_clear_connector_zero_clears_all (store : Store) (profile_id : Option Int)
    (connector_id_arg : Option Int) (purpose_str : Option String)
    (stack_level : Option Int) (h : connector_id_arg.getD 0 = 0) :
    (∀ c, (on_clear_charging_profile store profile_id connector_id_arg purpose_str
        stack_level).2.read c =
      (store.read c).filter (fun p => ! matches_criteria profile_id
        (match purpose_str with
         | none => none
         | some s => purpose_from_string s) stack_level p)) ∧
    ((on_clear_charging_profile store profile_id connector_id_arg purpose_str
        stack_level).1 = ClearChargingProfileStatus.accepted ↔
      ∃ c, ∃ p ∈ store.read c, matches_criteria profile_id
        (match purpose_str with
         | none => none
         | some s => purpose_from_string s) stack_level p = true) := by
  simp only [on_clear_charging_profile]
  rw [h, if_pos rfl]
  constructor
  · intro c
    rw [clear_all_connectors_read]
    by_cases hc : c ∈ store.keys
    · rw [if_pos hc]
    · rw [if_neg hc, Store.read_of_not_mem store c hc]
      rfl
  · by_cases hpos : (clear_all_connectors store store.keys profile_id
        (match purpose_str with
         | none => none
         | some s => purpose_from_string s) stack_level).1 > 0
    · rw [if_pos hpos]
      simp only [true_iff]
      obtain ⟨k, _, p, hp, hm⟩ :=
        (clear_all_connectors_count_pos _ _ _ store.keys store).mp hpos
      exact ⟨k, p, hp, hm⟩
    · rw [if_neg hpos]
      constructor
      · intro hc
        cases hc
      · rintro ⟨c, p, hp, hm⟩
        exact absurd ((clear_all_connectors_count_pos _ _ _ store.keys store).mpr
          ⟨c, Store.mem_keys_of_read store c p hp, p, hp, hm⟩) hpos

/-- Witness for C8: clearing with no filters and absent connector id on a
one-profile store returns `Accepted`. -/
theorem on_clear_connector_zero_clears_all_witness :
    (on_clear_charging_profile demo_limit_store none none none none).1 =
      ClearChargingProfileStatus.accepted :=
  (on_clear_connector_zero_clears_all demo_limit_store none none none none rfl).2.mpr
    ⟨1, demo_replaceable_profile, by decide, by decide⟩

/-! ## C9 — parse/serialize round trip -/

/-- Rate-unit wire strings round-trip. -/
theorem rate_unit_round (u : ChargingRateUnit) :
    rate_unit_from_string (rate_unit_to_string u) = some u := by
  cases u <;> rfl

/-- Purpose wire strings round-trip. -/
theorem purpose_round (pu : ChargingProfilePurpose) :
    purpose_from_string (purpose_to_string pu) = some pu := by
  cases pu <;> rfl

/-- Kind wire strings round-trip. -/
theorem kind_round (k : ChargingProfileKind) :
    kind_from_string (kind_to_string k) = some k := by
  cases k <;> rfl

/-- Recurrency wire strings round-trip. -/
theorem recurrency_round (r : RecurrencyKind) :
    recurrency_from_string (recurrency_to_string r) = some r := by
  cases r <;> rfl

/-- A serialized period parses back to itself. -/
theorem parse_period_to_dict (per : ChargingSchedulePeriod) :
    parse_period (period_to_dict per) = Except.ok per := rfl

/-- A serialized period list parses back to itself. -/
theorem parse_periods_map (ps : List ChargingSchedulePeriod) :
    parse_periods (ps.map period_to_dict) = Except.ok ps := by
  induction ps with
  | nil => rfl
  | cons a t ih =>
    simp only [List.map_cons, parse_periods, parse_period_to_dict, ih]

/-- C9: for every valid profile `O`, parsing its serialization succeeds
and yields `O` on all semantic fields, and serialization omits every
optional field absent in `O`. -/
theorem parse_serialize_roundtrip (O : ChargingProfile)
    (hv : (validate_charging_profile O).1 = true) :
    parse_charging_profile (profile_to_dict O) = Except.ok O ∧
    (profile_to_dict O).transactionId = O.transaction_id ∧
    ((profile_to_dict O).recurrencyKind.isNone ↔ O.recurrency_kind.isNone) ∧
    (profile_to_dict O).validFrom = O.valid_from ∧
    (profile_to_dict O).validTo = O.valid_to ∧
    (schedule_to_dict O.charging_schedule).duration = O.charging_schedule.duration ∧
    (schedule_to_dict O.charging_schedule).startSchedule =
      O.charging_schedule.start_schedule ∧
    (schedule_to_dict O.charging_schedule).minChargingRate =
      O.charging_schedule.min_charging_rate ∧
    (∀ per ∈ O.charging_schedule.charging_schedule_period,
      (period_to_dict per).numberPhases = per.number_phases) := by
  refine ⟨?_, rfl, ?_, rfl, rfl, rfl, rfl, rfl, fun per _ => rfl⟩
  · obtain ⟨pid, sl, pu, k, sched, txid, rk, vf, vt⟩ := O
    obtain ⟨ru, ps, du, ss, mc⟩ := sched
    simp only [profile_to_dict, schedule_to_dict, parse_charging_profile,
      rate_unit_round, purpose_round, kind_round, parse_periods_map]
    cases rk with
    | none => rfl
    | some r =>
      simp only [Option.map_some', recurrency_round]
  · cases hrk : O.recurrency_kind <;> simp [profile_to_dict, hrk]

/-- Witness for C9 at a concrete valid profile. -/
theorem parse_serialize_roundtrip_witness :
    parse_charging_profile (profile_to_dict demo_daily_profile) =
      Except.ok demo_daily_profile :=
  (parse_serialize_roundtrip demo_daily_profile (by decide)).1

/-! ## C3 — composite schedule coverage and period compression -/

/-- "At least one (non-Relative, time-valid) profile applies" at offset
`s` of the composite window. -/
def composite_applies (store : Store) (connector_id : Int) (t0 : Int) (s : Nat) : Prop :=
  ∃ p ∈ composite_valid_profiles store connector_id t0,
    get_limit_at_time p (t0 + (s : Int)) none ≠ none

/-- The per-second minimum is absent exactly when no profile applies. -/
theorem composite_second_limit_eq_none_iff (store : Store) (connector_id : Int)
    (t0 : Int) (s : Nat) :
    composite_second_limit store connector_id t0 s = none ↔
      ¬ composite_applies store connector_id t0 s := by
  unfold composite_second_limit composite_sorted_profiles composite_applies
  rw [min_limit_fold_eq_none_iff]
  constructor
  · rintro h ⟨p, hp, hne⟩
    exact hne (h p ((List.mem_insertionSort _).mpr hp))
  · intro h p hp
    by_contra hne
    exact h ⟨p, (List.mem_insertionSort _).mp hp, hne⟩

/-- The compression loop always emits the pending run first. -/
theorem compress_periods_head (cov : List (Nat × ℚ)) :
    ∀ cs cl prev, ∃ tail, compress_periods cs cl prev cov =
      { start_period := (cs : Int), limit := cl, number_phases := none } :: tail := by
  induction cov with
  | nil =>
    intro cs cl prev
    exact ⟨[], rfl⟩
  | cons e rest ih =>
    intro cs cl prev
    obtain ⟨s, l⟩ := e
    by_cases h : l ≠ cl ∨ s ≠ prev + 1
    · exact ⟨compress_periods s l s rest, by simp only [compress_periods, if_pos h]⟩
    · simpa only [compress_periods, if_neg h] using ih cs cl s

/-- Every consumed covered second ends up inside a period that starts no
later and carries its limit. -/
theorem compress_periods_coverage (cov : List (Nat × ℚ)) :
    ∀ cs cl prev, cs ≤ prev →
      (∀ e ∈ cov, prev < e.1) →
      List.Pairwise (fun a b : Nat × ℚ => a.1 < b.1) cov →
      ∀ e ∈ cov, ∃ per ∈ compress_periods cs cl prev cov,
        per.start_period ≤ (e.1 : Int) ∧ per.limit = e.2 := by
  induction cov with
  | nil =>
    intro cs cl prev _ _ _ e he
    cases he
  | cons hd rest ih =>
    intro cs cl prev hcs hmem hpair e he
    obtain ⟨s, l⟩ := hd
    have hmem' : ∀ e' ∈ rest, s < e'.1 := (List.pairwise_cons.mp hpair).1
    have hpair' := (List.pairwise_cons.mp hpair).2
    by_cases hbr : l ≠ cl ∨ s ≠ prev + 1
    · simp only [compress_periods, if_pos hbr]
      rcases List.mem_cons.mp he with rfl | htail
      · obtain ⟨tail, heq⟩ := compress_periods_head rest s l s
        refine ⟨{ start_period := ((s : Nat) : Int), limit := l, number_phases := none },
          List.mem_cons_of_mem _ ?_, le_refl _, rfl⟩
        rw [heq]
        exact List.mem_cons_self _ _
      · obtain ⟨per, hper, h1, h2⟩ := ih s l s (le_refl s) hmem' hpair' e htail
        exact ⟨per, List.mem_cons_of_mem _ hper, h1, h2⟩
    · have hbr' := hbr
      push_neg at hbr'
      obtain ⟨hl, hs⟩ := hbr'
      simp only [compress_periods, if_neg hbr]
      have hps : prev < s := hmem (s, l) (List.mem_cons_self _ _)
      rcases List.mem_cons.mp he with rfl | htail
      · obtain ⟨tail, heq⟩ := compress_periods_head rest cs cl s
        refine ⟨_, by rw [heq]; exact List.mem_cons_self _ _, ?_, hl.symm⟩
        show ((cs : Nat) : Int) ≤ ((s : Nat) : Int)
        have hcss : cs ≤ s := by omega
        exact_mod_cast hcss
      · exact ih cs cl s (by omega) hmem' hpair' e htail

/-- Adjacent periods emitted by the compression loop differ in limit or
are separated by an uncovered second of the window. -/
theorem compress_periods_chain (tl : Nat → Option ℚ) (D : Nat) (cov : List (Nat × ℚ)) :
    ∀ cs cl prev, cs ≤ prev →
      (∀ e ∈ cov, prev < e.1 ∧ e.1 < D ∧ tl e.1 = some e.2) →
      List.Pairwise (fun a b : Nat × ℚ => a.1 < b.1) cov →
      (∀ s, prev < s → s < D → tl s ≠ none → s ∈ cov.map Prod.fst) →
      List.Chain' (fun a b => a.limit ≠ b.limit ∨ ∃ s' : Nat, s' < D ∧
          a.start_period ≤ (s' : Int) ∧ (s' : Int) < b.start_period ∧ tl s' = none)
        (compress_periods cs cl prev cov) := by
  induction cov with
  | nil =>
    intro cs cl prev _ _ _ _
    simp [compress_periods]
  | cons hd rest ih =>
    intro cs cl prev hcs hmem hpair hcomp
    obtain ⟨s, l⟩ := hd
    have hps : prev < s := (hmem (s, l) (List.mem_cons_self _ _)).1
    have hsD : s < D := (hmem (s, l) (List.mem_cons_self _ _)).2.1
    have hmem' : ∀ e ∈ rest, s < e.1 ∧ e.1 < D ∧ tl e.1 = some e.2 := by
      intro e he
      exact ⟨(List.pairwise_cons.mp hpair).1 e he, (hmem e (List.mem_cons_of_mem _ he)).2⟩
    have hpair' := (List.pairwise_cons.mp hpair).2
    have hcomp' : ∀ s'', s < s'' → s'' < D → tl s'' ≠ none → s'' ∈ rest.map Prod.fst := by
      intro s'' hgt hlt hne
      have hin := hcomp s'' (by omega) hlt hne
      rw [List.map_cons] at hin
      rcases List.mem_cons.mp hin with heq | hrest
      · omega
      · exact hrest
    by_cases hbr : l ≠ cl ∨ s ≠ prev + 1
    · simp only [compress_periods, if_pos hbr]
      obtain ⟨tail, heq⟩ := compress_periods_head rest s l s
      rw [heq, List.chain'_cons]
      constructor
      · rcases hbr with hlc | hsp
        · exact Or.inl (Ne.symm hlc)
        · refine Or.inr ⟨prev + 1, by omega, ?_, ?_, ?_⟩
          · show ((cs : Nat) : Int) ≤ ((prev + 1 : Nat) : Int)
            have hle : cs ≤ prev + 1 := by omega
            exact_mod_cast hle
          · show ((prev + 1 : Nat) : Int) < ((s : Nat) : Int)
            have hlt : prev + 1 < s := by omega
            exact_mod_cast hlt
          · by_contra htl
            have hin := hcomp (prev + 1) (by omega) (by omega) htl
            rw [List.map_cons] at hin
            rcases List.mem_cons.mp hin with heq2 | hrest2
            · omega
            · rcases List.mem_map.mp hrest2 with ⟨e, he, heq3⟩
              have := (hmem' e he).1
              omega
      · rw [← heq]
        exact ih s l s (le_refl _) hmem' hpair' hcomp'
    · have hbr' := hbr
      push_neg at hbr'
      simp only [compress_periods, if_neg hbr]
      exact ih cs cl s (by omega) hmem' hpair' hcomp'

/-- Membership in the per-second coverage list of the composite
computation. -/
theorem covered_list_mem (store : Store) (connector_id : Int) (t0 : Int) (D : Nat)
    (e : Nat × ℚ) :
    e ∈ (List.range D).filterMap (fun s =>
        (composite_second_limit store connector_id t0 s).map (fun l => (s, l))) ↔
      e.1 < D ∧ composite_second_limit store connector_id t0 e.1 = some e.2 := by
  rw [List.mem_filterMap]
  constructor
  · rintro ⟨a, ha, heq⟩
    rw [Option.map_eq_some'] at heq
    obtain ⟨l, hl, heq2⟩ := heq
    rw [← heq2]
    exact ⟨List.mem_range.mp ha, hl⟩
  · rintro ⟨hD, hsome⟩
    refine ⟨e.1, List.mem_range.mpr hD, ?_⟩
    rw [hsome]
    rfl

/-- The coverage list is strictly increasing in its seconds. -/
theorem covered_list_pairwise (store : Store) (connector_id : Int) (t0 : Int) (D : Nat) :
    List.Pairwise (fun a b : Nat × ℚ => a.1 < b.1)
      ((List.range D).filterMap (fun s =>
        (composite_second_limit store connector_id t0 s).map (fun l => (s, l)))) := by
  rw [List.pairwise_filterMap]
  apply List.Pairwise.imp ?_ (List.pairwise_lt_range D)
  intro a b hab x hx y hy
  rw [Option.mem_def, Option.map_eq_some'] at hx hy
  obtain ⟨la, _, hxa⟩ := hx
  obtain ⟨lb, _, hyb⟩ := hy
  rw [← hxa, ← hyb]
  exact hab

/-- C3 (amended): the composite schedule returns nothing iff no profile
applies at any second of the window; when it returns a schedule, every
second at which some (non-Relative, time-valid) profile applies lies in a
period that starts no later and carries that second's limit, and adjacent
periods either have strictly different limits or are separated by a
coverage gap (an uncovered second of the window between their starts). -/
theorem get_composite_schedule_coverage (store : Store) (connector_id : Int)
    (D : Nat) (u : ChargingRateUnit) (t0 : Int) :
    (get_composite_schedule store connector_id D u t0 = none ↔
      ∀ s, s < D → ¬ composite_applies store connector_id t0 s) ∧
    (∀ sched, get_composite_schedule store connector_id D u t0 = some sched →
      (∀ s, s < D → composite_applies store connector_id t0 s →
        ∃ per ∈ sched.charging_schedule_period,
          per.start_period ≤ (s : Int) ∧
          some per.limit = composite_second_limit store connector_id t0 s) ∧
      List.Chain' (fun a b => a.limit ≠ b.limit ∨ ∃ s' : Nat, s' < D ∧
          a.start_period ≤ (s' : Int) ∧ (s' : Int) < b.start_period ∧
          composite_second_limit store connector_id t0 s' = none)
        sched.charging_schedule_period) := by
  have happlies_mem : ∀ s, composite_applies store connector_id t0 s →
      ∃ l, composite_second_limit store connector_id t0 s = some l := by
    intro s hap
    rcases hcl : composite_second_limit store connector_id t0 s with _ | l
    · exact absurd hap ((composite_second_limit_eq_none_iff store connector_id t0 s).mp hcl)
    · exact ⟨l, rfl⟩
  simp only [get_composite_schedule]
  by_cases h1 : (collect_profiles store connector_id).isEmpty = true
  · rw [if_pos h1]
    have hnil : collect_profiles store connector_id = [] := by simpa using h1
    refine ⟨⟨fun _ s _ hap => ?_, fun _ => rfl⟩, fun sched h => by cases h⟩
    obtain ⟨p, hp, _⟩ := hap
    have hpc : p ∈ collect_profiles store connector_id := (List.mem_filter.mp hp).1
    rw [hnil] at hpc
    cases hpc
  · rw [if_neg h1]
    by_cases h2 : (composite_valid_profiles store connector_id t0).isEmpty = true
    · rw [if_pos h2]
      have hnil : composite_valid_profiles store connector_id t0 = [] := by simpa using h2
      refine ⟨⟨fun _ s _ hap => ?_, fun _ => rfl⟩, fun sched h => by cases h⟩
      obtain ⟨p, hp, _⟩ := hap
      rw [hnil] at hp
      cases hp
    · rw [if_neg h2]
      cases hcov : (List.range D).filterMap (fun s =>
          (composite_second_limit store connector_id t0 s).map (fun l => (s, l))) with
      | nil =>
        refine ⟨⟨fun _ s hsD hap => ?_, fun _ => rfl⟩, fun sched h => by cases h⟩
        obtain ⟨l, hl⟩ := happlies_mem s hap
        have : (s, l) ∈ (List.range D).filterMap (fun s =>
            (composite_second_limit store connector_id t0 s).map (fun l => (s, l))) :=
          (covered_list_mem store connector_id t0 D (s, l)).mpr ⟨hsD, hl⟩
        rw [hcov] at this
        cases this
      | cons e rest =>
        obtain ⟨s0, l0⟩ := e
        have hmem_iff : ∀ e' : Nat × ℚ, e' ∈ (s0, l0) :: rest ↔
            e'.1 < D ∧ composite_second_limit store connector_id t0 e'.1 = some e'.2 := by
          intro e'
          rw [← hcov]
          exact covered_list_mem store connector_id t0 D e'
        have hpair : List.Pairwise (fun a b : Nat × ℚ => a.1 < b.1) ((s0, l0) :: rest) := by
          rw [← hcov]
          exact covered_list_pairwise store connector_id t0 D
        have hhead := (hmem_iff (s0, l0)).mp (List.mem_cons_self _ _)
        have hmem' : ∀ e' ∈ rest, s0 < e'.1 ∧ e'.1 < D ∧
            composite_second_limit store connector_id t0 e'.1 = some e'.2 := by
          intro e' he'
          refine ⟨(List.pairwise_cons.mp hpair).1 e' he', ?_⟩
          exact (hmem_iff e').mp (List.mem_cons_of_mem _ he')
        have hcomp : ∀ s, s0 < s → s < D →
            composite_second_limit store connector_id t0 s ≠ none →
            s ∈ rest.map Prod.fst := by
          intro s hgt hlt hne
          rcases hcl : composite_second_limit store connector_id t0 s with _ | l
          · exact absurd hcl hne
          · have hin := (hmem_iff (s, l)).mpr ⟨hlt, hcl⟩
            rcases List.mem_cons.mp hin with heq | htail
            · exfalso
              have : s = s0 := congrArg Prod.fst heq
              omega
            · exact List.mem_map.mpr ⟨(s, l), htail, rfl⟩
        have hhead1 : s0 < D := hhead.1
        have hhead2 : composite_second_limit store connector_id t0 s0 = some l0 := hhead.2
        constructor
        · constructor
          · intro h
            cases h
          · intro hall
            exfalso
            have hnone := (composite_second_limit_eq_none_iff store connector_id t0 s0).mpr
              (hall s0 hhead1)
            rw [hhead2] at hnone
            cases hnone
        · intro sched hsched
          injection hsched with hs'
          subst hs'
          constructor
          · intro s hsD hap
            obtain ⟨l, hl⟩ := happlies_mem s hap
            have hin := (hmem_iff (s, l)).mpr ⟨hsD, hl⟩
            rcases List.mem_cons.mp hin with heq | htail
            · obtain ⟨tail, heq2⟩ := compress_periods_head rest s0 l0 s0
              have hs0 : s = s0 := congrArg Prod.fst heq
              have hl0 : l = l0 := congrArg Prod.snd heq
              refine ⟨{ start_period := ((s0 : Nat) : Int), limit := l0,
                        number_phases := none }, ?_, ?_, ?_⟩
              · show _ ∈ compress_periods s0 l0 s0 rest
                rw [heq2]
                exact List.mem_cons_self _ _
              · show ((s0 : Nat) : Int) ≤ (s : Int)
                rw [hs0]
              · show some l0 = composite_second_limit store connector_id t0 s
                rw [hl, hl0]
            · obtain ⟨per, hper, hle, hlim⟩ :=
                compress_periods_coverage rest s0 l0 s0 (le_refl _)
                  (fun e' he' => (hmem' e' he').1) (List.pairwise_cons.mp hpair).2
                  (s, l) htail
              refine ⟨per, hper, hle, ?_⟩
              rw [hlim, hl]
          · exact compress_periods_chain
              (fun s => composite_second_limit store connector_id t0 s) D rest
              s0 l0 s0 (le_refl _) hmem' (List.pairwise_cons.mp hpair).2 hcomp

/-- An absolute profile covering window offsets 0 and 1 at 10 W. -/
def c3_profile_a : ChargingProfile :=
  { charging_profile_id := 1, stack_level := 0,
    charging_profile_purpose := ChargingProfilePurpose.chargePointMaxProfile,
    charging_profile_kind := ChargingProfileKind.absolute,
    charging_schedule :=
      { charging_rate_unit := ChargingRateUnit.watts,
        charging_schedule_period := [{ start_period := 0, limit := 10, number_phases := none }],
        duration := some 1, start_schedule := some 0, min_charging_rate := none },
    transaction_id := none, recurrency_kind := none,
    valid_from := none, valid_to := none }

/-- An absolute profile covering window offsets 5 and 6 at the same 10 W. -/
def c3_profile_b : ChargingProfile :=
  { charging_profile_id := 2, stack_level := 1,
    charging_profile_purpose := ChargingProfilePurpose.chargePointMaxProfile,
    charging_profile_kind := ChargingProfileKind.absolute,
    charging_schedule :=
      { charging_rate_unit := ChargingRateUnit.watts,
        charging_schedule_period := [{ start_period := 0, limit := 10, number_phases := none }],
        duration := some 1, start_schedule := some 5, min_charging_rate := none },
    transaction_id := none, recurrency_kind := none,
    valid_from := none, valid_to := none }

/-- A store whose coverage of a 7-second window has a gap between
offsets 1 and 5 with equal limits on both sides. -/
def c3_store : Store :=
  { keys := [1], map := fun c => if c = 1 then [c3_profile_a, c3_profile_b] else [] }

/-- The composite schedule the code produces for that store. -/
def c3_sched : ChargingSchedule :=
  { charging_rate_unit := ChargingRateUnit.watts,
    charging_schedule_period :=
      [{ start_period := 0, limit := 10, number_phases := none },
       { start_period := 5, limit := 10, number_phases := none }],
    duration := some 7, start_schedule := some 0, min_charging_rate := none }

/-- Counterexample to C3 as stated: a returned composite schedule can
contain adjacent periods with equal limits, when a coverage gap separates
them. -/
theorem composite_adjacent_equal_limits :
    get_composite_schedule c3_store 1 7 ChargingRateUnit.watts 0 = some c3_sched ∧
    ¬ List.Chain' (fun a b : ChargingSchedulePeriod => a.limit ≠ b.limit)
      c3_sched.charging_schedule_period := by
  constructor
  · decide
  · intro hch
    rw [c3_sched] at hch
    simp only [List.chain'_cons, List.chain'_singleton, and_true] at hch
    exact hch rfl

/-- Witness for the amended C3: for the concrete gap store, every pair of
adjacent periods of the returned schedule differs in limit or is
separated by an uncovered second of the window. -/
theorem get_composite_schedule_coverage_witness :
    List.Chain' (fun a b => a.limit ≠ b.limit ∨ ∃ s' : Nat, s' < 7 ∧
        a.start_period ≤ (s' : Int) ∧ (s' : Int) < b.start_period ∧
        composite_second_limit c3_store 1 0 s' = none)
      c3_sched.charging_schedule_period :=
  ((get_composite_schedule_coverage c3_store 1 7 ChargingRateUnit.watts 0).2
    c3_sched (by decide)).2
